import Mathlib

/-!
Verification development for the opticloud CLI (Optimizely DXP deployment
client).  The definitions below are a shallow embedding of the TypeScript
sources:

* `src/commands/deployment/watch.ts` — the polling state machine
  (`DeploymentWatch.watchDeployment`);
* `src/lib/hmac.ts` — the HMAC request signer (`HmacSigner.createSignature`);
* `src/commands/package/create.ts` and the composite deploy command —
  package-name generation (`generatePackageInfo`);
* `src/lib/api-client.ts` — response/error normalisation (`ApiClient.request`)
  and `ApiClient.validateCredentials`;
* `src/lib/package-service.ts` — `PackageService.validatePackageFile` and
  `PackageService.uploadPackage`;
* the composite `deployment:deploy` command — credential override scoping
  (`setupCredentials` / `cleanup`).

JavaScript string primitives used by the sources (`toLowerCase`, `toUpperCase`,
`trim`, `endsWith` with a one-character suffix, truthiness of strings) are
modelled explicitly; remote I/O is modelled by oracle parameters supplying the
outcome of each network call, and crypto primitives (MD5, HMAC-SHA256) are
abstract function parameters, since they live in `node:crypto`, outside the
repository.
-/

namespace Opticloud

/-! ## JavaScript string primitives -/

/-- ASCII lower-casing of a character, as JavaScript `toLowerCase` acts on the
ASCII range (the only range the sources compare against). -/
def lowerChar (c : Char) : Char :=
  if 'A' ≤ c ∧ c ≤ 'Z' then Char.ofNat (c.toNat + 32) else c

/-- ASCII upper-casing of a character, as JavaScript `toUpperCase` acts on the
ASCII range. -/
def upperChar (c : Char) : Char :=
  if 'a' ≤ c ∧ c ≤ 'z' then Char.ofNat (c.toNat - 32) else c

/-- JavaScript `String.prototype.toLowerCase` (ASCII fragment). -/
def jsLower (s : String) : String := String.mk (s.data.map lowerChar)

/-- JavaScript `String.prototype.toUpperCase` (ASCII fragment). -/
def jsUpper (s : String) : String := String.mk (s.data.map upperChar)

/-- JavaScript whitespace characters relevant to `trim` (space, tab, newline,
carriage return, form feed, vertical tab). -/
def isJsWhitespace (c : Char) : Bool :=
  c = ' ' ∨ c = '\t' ∨ c = '\n' ∨ c = '\r' ∨ c = '\x0c' ∨ c = '\x0b'

/-- JavaScript `String.prototype.trim` on the character list: strip whitespace
from both ends. -/
def jsTrimList (l : List Char) : List Char :=
  ((l.dropWhile isJsWhitespace).reverse.dropWhile isJsWhitespace).reverse

/-- JavaScript `String.prototype.trim`. -/
def jsTrim (s : String) : String := String.mk (jsTrimList s.data)

/-- JavaScript `s.endsWith(c)` for a one-character suffix `c`. -/
def endsWithChar (s : String) (c : Char) : Bool := s.data.getLast? = some c

/-- JavaScript truthiness-based string fallback `a || b`: the empty string is
falsy. -/
def jsStrOr (a b : String) : String := if a = "" then b else a

/-- JavaScript truthiness of an optional string: `undefined` and `""` are
falsy. -/
def jsTruthy : Option String → Bool
  | none => false
  | some s => s ≠ ""

/-- JavaScript `a || b` on optional strings, keeping track of the possibility
that both are falsy. -/
def jsOrOpt (a b : Option String) : Option String :=
  if jsTruthy a then a else b

/-! ## Deployment watch loop (`DeploymentWatch.watchDeployment`)

One poll iteration of the `while (true)` loop in
`src/commands/deployment/watch.ts` (lines 132–253), driven by the outcome of
`deploymentService.listDeployments`.  Console output is modelled as a list of
emitted `WatchEvent`s; the messages printed when the loop breaks are folded
into the `StopReason`. -/

/-- Observable fields of a remote deployment snapshot, as the watch loop reads
them (`status`, `percentComplete`, `deploymentWarnings`, `deploymentErrors`;
the latter three are optional in the API response). -/
structure Deployment where
  status : String
  percentComplete : Option Int
  deploymentWarnings : Option (List String)
  deploymentErrors : Option (List String)
deriving Repr, DecidableEq

/-- `deployment.percentComplete || 0`. -/
def currProgress (d : Deployment) : Int := d.percentComplete.getD 0

/-- `deployment.deploymentWarnings?.length || 0`. -/
def currWarnCount (d : Deployment) : Nat := (d.deploymentWarnings.getD []).length

/-- `deployment.deploymentErrors?.length || 0`. -/
def currErrCount (d : Deployment) : Nat := (d.deploymentErrors.getD []).length

/-- The mutable locals of `watchDeployment`'s loop. -/
structure WatchState where
  lastStatus : String
  lastProgress : Int
  lastWarningCount : Nat
  lastErrorCount : Nat
  consecutiveErrors : Nat
  errorsShown : Bool
deriving Repr, DecidableEq

/-- Initial values of the loop locals (`lastStatus = ''`, `lastProgress = -1`,
counters `0`, `errorsShown = false`). -/
def initWatchState : WatchState :=
  { lastStatus := "", lastProgress := -1, lastWarningCount := 0,
    lastErrorCount := 0, consecutiveErrors := 0, errorsShown := false }

/-- Outcome of one `listDeployments` poll: a thrown transport/API error, an
empty result list, or a deployment snapshot. -/
inductive PollResult where
  | fetchError
  | notFound
  | snapshot (d : Deployment)
deriving Repr, DecidableEq

/-- Console events the loop can emit during an iteration. -/
inductive WatchEvent where
  | statusChange (oldStatus newStatus : String)
  | progress (pct : Int)
  | errorRender (count : Nat) (lines : List String)
  | continuingNotice
  | newWarnings (newCount totalCount : Nat)
  | fetchFailure (attempt : Nat)
deriving Repr, DecidableEq

/-- Reasons the `while (true)` loop breaks. -/
inductive StopReason where
  | notFound
  | errorsDetected
  | succeeded
  | failed
  | awaitingVerification
  | tooManyFailures
deriving Repr, DecidableEq

/-- Result of one loop iteration: keep polling with an updated state, or
break. -/
inductive StepOutcome where
  | next (st : WatchState) (events : List WatchEvent)
  | stop (reason : StopReason) (events : List WatchEvent)
deriving Repr, DecidableEq

/-- `maxErrors` in `watchDeployment`. -/
def maxPollFailures : Nat := 3

/-- Rendering of one deployment error message (watch.ts lines 178–187):
an empty/whitespace message becomes a placeholder, `'Install output:'` or a
trimmed message ending in `':'` of length `< 20` is flagged incomplete. -/
def renderErrorLine (index : Nat) (error : String) : String :=
  let t := jsTrim error
  if t.length = 0 then toString (index + 1) ++ ". (Empty error message)"
  else if t = "Install output:" ∨ (endsWithChar t ':' ∧ t.length < 20) then
    toString (index + 1) ++ ". " ++ error ++ " (Incomplete error message)"
  else toString (index + 1) ++ ". " ++ error

/-- `forEach((error, index) => ...)` over the error list. -/
def renderErrorsFrom : Nat → List String → List String
  | _, [] => []
  | i, e :: es => renderErrorLine i e :: renderErrorsFrom (i + 1) es

/-- Rendered lines for the full error list. -/
def renderErrors (errors : List String) : List String := renderErrorsFrom 0 errors

/-- Shared tail of a successful-poll iteration: warning comparison, state
update, terminal-status checks, and the `consecutiveErrors = 0` reset
(watch.ts lines 203–237). -/
def finishIteration (st : WatchState) (d : Deployment) (lastProgressNew : Int)
    (errorsShownNew : Bool) (events : List WatchEvent) : StepOutcome :=
  let currentWarningCount := currWarnCount d
  let currentErrorCount := currErrCount d
  let warnEvents :=
    if currentWarningCount > st.lastWarningCount then
      [WatchEvent.newWarnings (currentWarningCount - st.lastWarningCount) currentWarningCount]
    else []
  let events2 := events ++ warnEvents
  let stNew : WatchState :=
    { lastStatus := d.status, lastProgress := lastProgressNew,
      lastWarningCount := currentWarningCount, lastErrorCount := currentErrorCount,
      consecutiveErrors := 0, errorsShown := errorsShownNew }
  if jsLower d.status = "succeeded" then .stop .succeeded events2
  else if jsLower d.status = "failed" then .stop .failed events2
  else if jsLower d.status = "awaitingverification" then .stop .awaitingVerification events2
  else .next stNew events2

/-- One iteration of the `while (true)` loop, translated from watch.ts lines
141–252. -/
def watchStep (continueOnErrors : Bool) (st : WatchState) (r : PollResult) : StepOutcome :=
  match r with
  | .fetchError =>
    let n := st.consecutiveErrors + 1
    if n ≥ maxPollFailures then .stop .tooManyFailures [.fetchFailure n]
    else .next { st with consecutiveErrors := n } [.fetchFailure n]
  | .notFound => .stop .notFound []
  | .snapshot d =>
    let statusEvents :=
      if d.status ≠ st.lastStatus ∧ st.lastStatus ≠ "" then
        [WatchEvent.statusChange st.lastStatus d.status]
      else []
    let progressEvents :=
      if currProgress d ≠ st.lastProgress ∧ currProgress d > st.lastProgress then
        [WatchEvent.progress (currProgress d)]
      else []
    let lastProgressNew := max st.lastProgress (currProgress d)
    let baseEvents := statusEvents ++ progressEvents
    if currErrCount d > st.lastErrorCount ∧ st.errorsShown = false then
      let errEvents := baseEvents ++
        [WatchEvent.errorRender (currErrCount d) (renderErrors (d.deploymentErrors.getD []))]
      if continueOnErrors = false then .stop .errorsDetected errEvents
      else finishIteration st d lastProgressNew true (errEvents ++ [.continuingNotice])
    else finishIteration st d lastProgressNew st.errorsShown baseEvents

/-- Running the loop over a finite list of poll outcomes: the emitted events
and, if it broke, the stop reason (`none` means the oracle list ran out while
the loop was still going). -/
def watchLoop (continueOnErrors : Bool) (st : WatchState) :
    List PollResult → List WatchEvent × Option StopReason
  | [] => ([], none)
  | r :: rs =>
    match watchStep continueOnErrors st r with
    | .next st2 evs =>
      let rest := watchLoop continueOnErrors st2 rs
      (evs ++ rest.1, rest.2)
    | .stop reason evs => (evs, some reason)

/-- Stop reason of a single step outcome, if it stopped. -/
def stopReasonOf : StepOutcome → Option StopReason
  | .next _ _ => none
  | .stop reason _ => some reason

/-- Whether a status string is one of the three terminal values the loop
checks for (case-insensitively). -/
def isTerminalStatus (s : String) : Bool :=
  jsLower s = "succeeded" ∨ jsLower s = "failed" ∨ jsLower s = "awaitingverification"

/-- Count of full error-list renders among emitted events. -/
def countErrorRenders (evs : List WatchEvent) : Nat :=
  evs.countP fun e => match e with | .errorRender _ _ => true | _ => false

/-- Count of "continuing despite errors" notices among emitted events. -/
def countContinuingNotices (evs : List WatchEvent) : Nat :=
  evs.countP fun e => match e with | .continuingNotice => true | _ => false

/-- Budget device for the once-per-session counting arguments: `1` while the
full error list has not been rendered yet, `0` afterwards. -/
def errBudget (st : WatchState) : Nat := if st.errorsShown then 0 else 1

/-- A poll sequence in which every run of consecutive `fetchError` outcomes,
continuing a run of `n` failures already in progress, stays below the budget
of 3. -/
def failureRunsOk : Nat → List PollResult → Bool
  | _, [] => true
  | n, .fetchError :: rs => decide (n + 1 < 3) && failureRunsOk (n + 1) rs
  | _, _ :: rs => failureRunsOk 0 rs

/-! ## Request signer (`HmacSigner.createSignature`, `src/lib/hmac.ts`)

`Date.now()` and the random nonce are parameters (`timestampNow`,
`nonceGenerated`); MD5 and HMAC-SHA256 (from `node:crypto`) are abstract
function parameters returning base64 strings.  `Buffer.from(str, 'base64')`
never throws in Node — it decodes leniently, ignoring non-alphabet
characters — so the `try/catch` in `isValidBase64` can only return `false`
through the two explicit syntactic checks. -/

/-- `HmacSigner.isValidBase64`: length a multiple of 4 and no space
characters; the decode step is total and never fails. -/
def isValidBase64 (str : String) : Bool :=
  decide (str.length % 4 = 0) && !(str.data.contains ' ')

/-- Value of a base64 alphabet character, `none` for characters outside the
alphabet (which Node's lenient decoder skips). -/
def b64Val (c : Char) : Option Nat :=
  if 'A' ≤ c ∧ c ≤ 'Z' then some (c.toNat - 65)
  else if 'a' ≤ c ∧ c ≤ 'z' then some (c.toNat - 97 + 26)
  else if '0' ≤ c ∧ c ≤ '9' then some (c.toNat - 48 + 52)
  else if c = '+' then some 62
  else if c = '/' then some 63
  else none

/-- Regroup 6-bit values into bytes, dropping a trailing lone value, as the
lenient base64 decoder does. -/
def b64DecodeVals : List Nat → List Nat
  | a :: b :: c :: d :: rest =>
    (a * 4 + b / 16) :: ((b % 16) * 16 + c / 4) :: ((c % 4) * 64 + d) :: b64DecodeVals rest
  | [a, b] => [a * 4 + b / 16]
  | [a, b, c] => [a * 4 + b / 16, (b % 16) * 16 + c / 4]
  | _ => []

/-- Node's `Buffer.from(str, 'base64')`: skip non-alphabet characters, decode
the rest; total, never throws. -/
def jsBase64Decode (s : String) : List Nat := b64DecodeVals (s.data.filterMap b64Val)

/-- The record returned by `HmacSigner.createSignature`. -/
structure SignatureResult where
  timestamp : String
  nonce : String
  signature : String
  authorization : String
deriving Repr, DecidableEq

/-- `HmacSigner.createSignature`, with the crypto primitives and the generated
timestamp/nonce as parameters.  `md5Base64 body` models
`createHash('md5').update(body, 'utf8').digest('base64')` and
`hmacSha256Base64 key msg` models
`createHmac('sha256', key).update(msg, 'utf8').digest('base64')`. -/
def createSignature (md5Base64 : String → String)
    (hmacSha256Base64 : List Nat → String → String)
    (timestampNow nonceGenerated : String)
    (clientKey clientSecret method path body : String) :
    Except String SignatureResult :=
  if isValidBase64 clientSecret = false then
    .error "The ClientSecret is invalid - must be valid base64."
  else
    let bodyHash := md5Base64 body
    let message := clientKey ++ jsUpper method ++ path ++ timestampNow ++ nonceGenerated ++ bodyHash
    let signature := hmacSha256Base64 (jsBase64Decode clientSecret) message
    let authorization :=
      "epi-hmac " ++ clientKey ++ ":" ++ timestampNow ++ ":" ++ nonceGenerated ++ ":" ++ signature
    .ok { timestamp := timestampNow, nonce := nonceGenerated,
          signature := signature, authorization := authorization }

/-! ## Package naming (`generatePackageInfo`)

Two independent transcriptions exist in the sources: one in
`src/commands/package/create.ts` (returning name, extension and a display
type) and one in the composite `deployment:deploy` command (returning only
the name).  `version` is the already-resolved version string (the timestamp
default that replaces an omitted version is outside these claims); a prefix
that is absent or empty is falsy in JavaScript and drops the leading
segment. -/

inductive PackageType where
  | cms
  | commerce
  | head
  | sqldb
deriving Repr, DecidableEq

structure PackageInfo where
  name : String
  extension : String
  ptype : String
deriving Repr, DecidableEq

/-- The leading segment contributed by a truthy prefix. -/
def pfxSegment : Option String → String
  | none => ""
  | some p => if p = "" then "" else p ++ "."

/-- `PackageCreate.generatePackageInfo` (create.ts lines 159–206). -/
def generatePackageInfo (t : PackageType) (version : String) (pfx : Option String)
    (dbType : String) : PackageInfo :=
  match t with
  | .cms =>
    { name := pfxSegment pfx ++ "cms.app." ++ version ++ ".nupkg",
      extension := ".nupkg", ptype := "CMS Application" }
  | .commerce =>
    { name := pfxSegment pfx ++ "commerce.app." ++ version ++ ".nupkg",
      extension := ".nupkg", ptype := "Commerce Application" }
  | .head =>
    { name := pfxSegment pfx ++ "head.app." ++ version ++ ".zip",
      extension := ".zip", ptype := "Head Application" }
  | .sqldb =>
    { name := pfxSegment pfx ++ dbType ++ ".sqldb." ++ version ++ ".bacpac",
      extension := ".bacpac", ptype := jsUpper dbType ++ " Database" }

/-- `DeploymentDeploy.generatePackageInfo` (the composite command's own copy,
which returns only the name). -/
def deployGeneratePackageName (t : PackageType) (version : String) (pfx : Option String)
    (dbType : String) : String :=
  match t with
  | .cms => pfxSegment pfx ++ "cms.app." ++ version ++ ".nupkg"
  | .commerce => pfxSegment pfx ++ "commerce.app." ++ version ++ ".nupkg"
  | .head => pfxSegment pfx ++ "head.app." ++ version ++ ".zip"
  | .sqldb => pfxSegment pfx ++ dbType ++ ".sqldb." ++ version ++ ".bacpac"

/-! ## API client (`src/lib/api-client.ts`) -/

/-- Credentials as held by the credential store and the API client. -/
structure AuthCredentials where
  clientKey : String
  clientSecret : String
  projectId : Option String
deriving Repr, DecidableEq

/-- The `ApiError` failure shape: HTTP status, message, optional errors
list.  It is the only failure class the client constructs. -/
structure ApiErrorE where
  status : Nat
  message : String
  errors : Option (List String)
deriving Repr, DecidableEq

/-- The `{success, result?, errors?}` response envelope (the payload is
opaque for these claims and modelled as an optional string). -/
structure ApiEnvelope where
  success : Bool
  result : Option String
  errors : Option (List String)
deriving Repr, DecidableEq

/-- What the HTTP layer can hand `ApiClient.request`: a 2xx response (axios'
default `validateStatus`), a rejected non-2xx response carrying whatever of
`data.message` / `data.errors` the body had plus the axios error message, a
transport failure that received no response, or a non-axios exception. -/
inductive HttpWireOutcome where
  | response2xx (status : Nat) (body : ApiEnvelope)
  | responseErr (status : Nat) (dataMessage : Option String)
      (dataErrors : Option (List String)) (axiosMessage : String)
  | noResponse
  | nonAxios (desc : String)
deriving Repr, DecidableEq

/-- `errors?.join(', ') || 'API call failed'` (the joined string is falsy
when the list is absent, empty, or joins to the empty string). -/
def joinedErrors (es : Option (List String)) : String :=
  jsStrOr (String.intercalate ", " (es.getD [])) "API call failed"

/-- `ApiClient.request`'s normalisation of every outcome into a result or an
`ApiError` (api-client.ts lines 247–313 plus the response interceptor at
lines 205–218).  A non-2xx response is converted by the interceptor
(`data?.message || error.message || 'API request failed'`, `data?.errors ||
[]`) and re-thrown unchanged by the catch; a no-response axios failure passes
the interceptor untouched and becomes `ApiError(0, "HTTP 0: Unknown")`; any
other exception becomes `ApiError(0, "Network error: " + desc)`. -/
def requestOutcome (w : HttpWireOutcome) : Except ApiErrorE (Option String) :=
  match w with
  | .response2xx status body =>
    if body.success = false then
      .error { status := status, message := joinedErrors body.errors, errors := body.errors }
    else .ok body.result
  | .responseErr status dataMessage dataErrors axiosMessage =>
    .error { status := status,
             message := jsStrOr (dataMessage.getD "") (jsStrOr axiosMessage "API request failed"),
             errors := some (dataErrors.getD []) }
  | .noResponse =>
    .error { status := 0, message := "HTTP 0: Unknown", errors := none }
  | .nonAxios desc =>
    .error { status := 0, message := "Network error: " ++ desc, errors := none }

/-- Result record of `validateCredentials`. -/
structure ValidationResult where
  valid : Bool
  projectsFound : Option Nat
deriving Repr, DecidableEq

/-- What a `this.get` inside `validateCredentials` can do: return a parsed
value (`some n` for an array of length `n`, `none` for a non-array), throw an
`ApiError`, or throw anything else (signing errors and the like). -/
inductive ApiCallError where
  | apiError (status : Nat) (message : String)
  | otherError (desc : String)
deriving Repr, DecidableEq

/-- Errors `validateCredentials` lets escape: the wrapping `new Error('API
validation failed with status ...')` for a non-auth `ApiError`, or the
re-raised original exception. -/
inductive ValidationError where
  | wrappedApi (status : Nat) (message : String)
  | reraised (desc : String)
deriving Repr, DecidableEq

/-- `ApiClient.validateCredentials` (api-client.ts lines 335–371): swap the
supplied credentials into the client, perform a representative read
(deployments list when a truthy project id is present, projects list
otherwise), interpret 401/403 as invalid credentials, wrap other `ApiError`s,
re-raise everything else, and restore the original credentials in the
`finally` on every exit path.  The oracle receives the in-memory credentials
in effect during the call and the endpoint; the function returns the result,
the in-memory credentials after the `finally`, and the endpoint read. -/
def validateCredentials
    (oracle : Option AuthCredentials → String → Except ApiCallError (Option Nat))
    (memCredentials : Option AuthCredentials) (creds : AuthCredentials) :
    Except ValidationError ValidationResult × Option AuthCredentials × String :=
  let originalCredentials := memCredentials
  let credentialsDuring : Option AuthCredentials := some creds
  let endpoint :=
    match creds.projectId with
    | some pid => if pid = "" then "projects" else "projects/" ++ pid ++ "/deployments"
    | none => "projects"
  let result :=
    match oracle credentialsDuring endpoint with
    | .ok v => .ok { valid := true, projectsFound := some (v.getD 0) }
    | .error (.apiError status message) =>
      if status = 401 ∨ status = 403 then .ok { valid := false, projectsFound := none }
      else .error (.wrappedApi status message)
    | .error (.otherError desc) => .error (.reraised desc)
  (result, originalCredentials, endpoint)

/-! ## Package upload (`PackageService`, `src/lib/package-service.ts`)

`validatePackageFile` checks existence, non-zero size, and the name pattern
`^(.+\.)?(((cms|commerce|head)\.app\.(.+)\.(nupkg|zip))|((cms|commerce)\.sqldb\.(.+)\.bacpac))$`
case-insensitively.  The matcher below implements the regex's semantics:
an optional nonempty prefix ending in a dot, then one of the cores, where
`(.+)` demands a nonempty version segment. -/

/-- Strip `p` from the front of `l`, returning the remainder. -/
def stripChars : List Char → List Char → Option (List Char)
  | [], l => some l
  | _ :: _, [] => none
  | p :: ps, c :: cs => if c = p then stripChars ps cs else none

/-- Does `r` have the form `v ++ "." ++ ext` with `v` nonempty?  (The
`(.+)\.ext` tail of the regex.) -/
def hasDotExt (ext : List Char) (r : List Char) : Bool :=
  match stripChars (ext.reverse ++ ['.']) r.reverse with
  | some rest => rest ≠ []
  | none => false

/-- One `mod.app.<version>.{nupkg|zip}` core alternative. -/
def appCoreMatch (mod : String) (l : List Char) : Bool :=
  match stripChars (mod ++ ".app.").data l with
  | some r => hasDotExt "nupkg".data r || hasDotExt "zip".data r
  | none => false

/-- One `mod.sqldb.<version>.bacpac` core alternative. -/
def sqldbCoreMatch (mod : String) (l : List Char) : Bool :=
  match stripChars (mod ++ ".sqldb.").data l with
  | some r => hasDotExt "bacpac".data r
  | none => false

/-- The full core group of the regex. -/
def coreMatch (l : List Char) : Bool :=
  appCoreMatch "cms" l || appCoreMatch "commerce" l || appCoreMatch "head" l ||
    sqldbCoreMatch "cms" l || sqldbCoreMatch "commerce" l

/-- Try every split at a dot with a nonempty prefix before it (the
`(.+\.)?` group): scanning starts after at least one leading character. -/
def dotSplitMatch : List Char → Bool
  | [] => false
  | c :: rest => (c == '.' && coreMatch rest) || dotSplitMatch rest

/-- The package-name regex, case-insensitively. -/
def packagePatternMatch (fileName : String) : Bool :=
  let l := (jsLower fileName).data
  coreMatch l ||
    (match l with
     | [] => false
     | _ :: rest => dotSplitMatch rest)

/-- `PackageService.validatePackageFile` (package-service.ts lines 36–55),
with the file system facts (existence, size, basename) as parameters. -/
def validatePackageFile (fileExists : Bool) (fileSize : Nat)
    (filePath fileBaseName : String) : Except String Unit :=
  if fileExists = false then .error ("File not found: " ++ filePath)
  else if fileSize = 0 then .error "Package file is empty"
  else if packagePatternMatch fileBaseName = false then
    .error ("Invalid package name: " ++ fileBaseName ++
      ". Package must match the pattern: [prefix.]cms|commerce|head.app.<version>.nupkg|zip or [prefix.]cms|commerce.sqldb.<version>.bacpac")
  else .ok ()

/-- `getProjectId`: the explicit id if truthy, else the credential store's
project id, else the config default, else an error. -/
def resolveProjectId (provided storedProjectId configProjectId : Option String) :
    Except String String :=
  if jsTruthy provided then .ok (provided.getD "")
  else
    let pid := jsOrOpt storedProjectId configProjectId
    if jsTruthy pid then .ok (pid.getD "")
    else .error "Project ID is required. Provide via --project-id or set a default during login."

/-- Inputs of one `uploadPackage` call: the local file facts and the options
object. -/
structure UploadOptions where
  filePath : String
  fileExists : Bool
  fileSize : Nat
  fileBaseName : String
  projectId : Option String
  blobName : Option String
deriving Repr, DecidableEq

/-- `PackageService.uploadPackage` (package-service.ts lines 157–172):
resolve the project id, validate the file, compute the blob name
(`blobName || basename(filePath)`), fetch a SAS URL, upload.  The two
network steps are oracles; the function returns the blob name used.  Any
validation failure happens before either oracle is consulted. -/
def uploadPackage (storedProjectId configProjectId : Option String)
    (sasOracle : Except String String)
    (uploadOracle : String → String → Except String Unit)
    (o : UploadOptions) : Except String String :=
  match resolveProjectId o.projectId storedProjectId configProjectId with
  | .error e => .error e
  | .ok _ =>
    match validatePackageFile o.fileExists o.fileSize o.filePath o.fileBaseName with
    | .error e => .error e
    | .ok _ =>
      let finalBlobName := jsStrOr (o.blobName.getD "") o.fileBaseName
      match sasOracle with
      | .error e => .error e
      | .ok sasUrl =>
        match uploadOracle sasUrl finalBlobName with
        | .error e => .error e
        | .ok _ => .ok finalBlobName

/-! ## Composite deploy workflow (`deployment:deploy`)

`run` calls `setupCredentials`, the four workflow steps, and `cleanup` in a
`finally`.  The world state tracks the persisted credential store (keytar),
the API client's in-memory credentials, and the configured API endpoint.
None of the workflow steps writes the credential store — `auth.saveCredentials`
is never called — so the body is an arbitrary function constrained to
preserve `storedCredentials`.  `apiClient.validateCredentials` during setup
restores the in-memory credentials it temporarily swaps in (claim C7), so it
is state-neutral here and only its verdict (the oracle) matters. -/

/-- The flags `deployment:deploy` reads for credential handling. -/
structure ShipFlags where
  clientKey : Option String
  clientSecret : Option String
  apiEndpointFlag : Option String
  projectIdFlag : Option String
  skipValidation : Bool
deriving Repr, DecidableEq

/-- Credential store, in-memory client credentials, configured endpoint. -/
structure WorldState where
  storedCredentials : Option AuthCredentials
  memCredentials : Option AuthCredentials
  apiEndpoint : String
deriving Repr, DecidableEq

/-- Outcome of `setupCredentials`: the mutated state, the two saved
originals (`this.originalCredentials`, `this.originalApiEndpoint`, captured
before any mutation), and whether it threw. -/
structure SetupResult where
  state : WorldState
  savedCredentials : Option AuthCredentials
  savedEndpoint : String
  failed : Bool
deriving Repr, DecidableEq

/-- `DeploymentDeploy.setupCredentials` (lines 186–233): capture originals,
apply a truthy `--api-endpoint` override, then either install the
`--client-key`/`--client-secret` override (validating it unless skipped) or
require stored credentials to exist. -/
def setupCredentials (valOracle : AuthCredentials → Except String Bool)
    (flags : ShipFlags) (st : WorldState) : SetupResult :=
  let savedCreds := st.storedCredentials
  let savedEp := st.apiEndpoint
  let st1 :=
    if jsTruthy flags.apiEndpointFlag then
      { st with apiEndpoint := flags.apiEndpointFlag.getD "" }
    else st
  if jsTruthy flags.clientKey || jsTruthy flags.clientSecret then
    if (jsTruthy flags.clientKey && jsTruthy flags.clientSecret) = false then
      { state := st1, savedCredentials := savedCreds, savedEndpoint := savedEp, failed := true }
    else
      let overrideCreds : AuthCredentials :=
        { clientKey := flags.clientKey.getD "",
          clientSecret := flags.clientSecret.getD "",
          projectId := jsOrOpt flags.projectIdFlag (savedCreds.bind (fun c => c.projectId)) }
      if flags.skipValidation then
        { state := { st1 with memCredentials := some overrideCreds },
          savedCredentials := savedCreds, savedEndpoint := savedEp, failed := false }
      else
        match valOracle overrideCreds with
        | .ok true =>
          { state := { st1 with memCredentials := some overrideCreds },
            savedCredentials := savedCreds, savedEndpoint := savedEp, failed := false }
        | .ok false =>
          { state := st1, savedCredentials := savedCreds, savedEndpoint := savedEp, failed := true }
        | .error _ =>
          { state := st1, savedCredentials := savedCreds, savedEndpoint := savedEp, failed := true }
  else
    match savedCreds with
    | none =>
      { state := st1, savedCredentials := savedCreds, savedEndpoint := savedEp, failed := true }
    | some _ =>
      { state := st1, savedCredentials := savedCreds, savedEndpoint := savedEp, failed := false }

/-- `DeploymentDeploy.cleanup` (lines 463–485): restore the in-memory
credentials when originals were captured, restore a truthy original
endpoint.  (The temp-package deletion touches only the file system.) -/
def cleanupShip (savedCredentials : Option AuthCredentials) (savedEndpoint : String)
    (st : WorldState) : WorldState :=
  let st1 :=
    match savedCredentials with
    | some c => { st with memCredentials := some c }
    | none => st
  if savedEndpoint = "" then st1
  else { st1 with apiEndpoint := savedEndpoint }

/-- `DeploymentDeploy.run`: setup, then the workflow body (package create,
upload, start, watch/complete — which may succeed or throw), with `cleanup`
in the `finally` on every exit path. -/
def runShip (valOracle : AuthCredentials → Except String Bool) (flags : ShipFlags)
    (body : WorldState → WorldState) (st : WorldState) : WorldState :=
  let r := setupCredentials valOracle flags st
  if r.failed then cleanupShip r.savedCredentials r.savedEndpoint r.state
  else cleanupShip r.savedCredentials r.savedEndpoint (body r.state)

/-! ## Lemmas about the watch loop -/

theorem finishIteration_inv {st : WatchState} {d : Deployment} {lp : Int} {sh : Bool}
    {evs : List WatchEvent} {st2 : WatchState} {evs2 : List WatchEvent}
    (h : finishIteration st d lp sh evs = .next st2 evs2) :
    st2 = { lastStatus := d.status, lastProgress := lp, lastWarningCount := currWarnCount d,
            lastErrorCount := currErrCount d, consecutiveErrors := 0, errorsShown := sh }
      ∧ isTerminalStatus d.status = false := by
  unfold finishIteration at h
  split_ifs at h
  all_goals cases h
  all_goals exact ⟨rfl, by simp [isTerminalStatus, *]⟩

theorem finishIteration_nonterminal (st : WatchState) (d : Deployment) (lp : Int) (sh : Bool)
    (evs : List WatchEvent) (h : isTerminalStatus d.status = false) :
    finishIteration st d lp sh evs = .next
      { lastStatus := d.status, lastProgress := lp, lastWarningCount := currWarnCount d,
        lastErrorCount := currErrCount d, consecutiveErrors := 0, errorsShown := sh }
      (evs ++ (if currWarnCount d > st.lastWarningCount then
        [WatchEvent.newWarnings (currWarnCount d - st.lastWarningCount) (currWarnCount d)] else [])) := by
  simp only [isTerminalStatus, decide_eq_false_iff_not, not_or] at h
  unfold finishIteration
  rw [if_neg h.1, if_neg h.2.1, if_neg h.2.2]

theorem stopReason_finishIteration (st : WatchState) (d : Deployment) (lp : Int) (sh : Bool)
    (evs : List WatchEvent) :
    stopReasonOf (finishIteration st d lp sh evs) =
      (if jsLower d.status = "succeeded" then some .succeeded
       else if jsLower d.status = "failed" then some .failed
       else if jsLower d.status = "awaitingverification" then some .awaitingVerification
       else none) := by
  unfold finishIteration stopReasonOf
  split_ifs <;> rfl

theorem watchStep_snapshot_next_inv {cfg : Bool} {st : WatchState} {d : Deployment}
    {st2 : WatchState} {evs : List WatchEvent}
    (h : watchStep cfg st (.snapshot d) = .next st2 evs) :
    st2.lastStatus = d.status ∧ st2.lastProgress = max st.lastProgress (currProgress d)
      ∧ st2.lastWarningCount = currWarnCount d ∧ st2.lastErrorCount = currErrCount d
      ∧ st2.consecutiveErrors = 0 ∧ isTerminalStatus d.status = false := by
  simp only [watchStep] at h
  by_cases hC : currErrCount d > st.lastErrorCount ∧ st.errorsShown = false
  · rw [if_pos hC] at h
    by_cases hco : cfg = false
    · rw [if_pos hco] at h
      cases h
    · rw [if_neg hco] at h
      obtain ⟨hst, hterm⟩ := finishIteration_inv h
      subst hst
      exact ⟨rfl, rfl, rfl, rfl, rfl, hterm⟩
  · rw [if_neg hC] at h
    obtain ⟨hst, hterm⟩ := finishIteration_inv h
    subst hst
    exact ⟨rfl, rfl, rfl, rfl, rfl, hterm⟩

theorem finishIteration_stop_inv {st : WatchState} {d : Deployment} {lp : Int} {sh : Bool}
    {evs : List WatchEvent} {rr : StopReason} {evs2 : List WatchEvent}
    (h : finishIteration st d lp sh evs = .stop rr evs2) :
    rr = .succeeded ∨ rr = .failed ∨ rr = .awaitingVerification := by
  unfold finishIteration at h
  split_ifs at h
  all_goals cases h
  all_goals tauto

theorem watchStep_snapshot_stop_reason {cfg : Bool} {st : WatchState} {d : Deployment}
    {rr : StopReason} {evs : List WatchEvent}
    (h : watchStep cfg st (.snapshot d) = .stop rr evs) : rr ≠ .tooManyFailures := by
  simp only [watchStep] at h
  by_cases hC : currErrCount d > st.lastErrorCount ∧ st.errorsShown = false
  · rw [if_pos hC] at h
    by_cases hco : cfg = false
    · rw [if_pos hco] at h
      cases h
      simp
    · rw [if_neg hco] at h
      rcases finishIteration_stop_inv h with h1 | h1 | h1 <;> (subst h1; simp)
  · rw [if_neg hC] at h
    rcases finishIteration_stop_inv h with h1 | h1 | h1 <;> (subst h1; simp)

theorem countER_append (a b : List WatchEvent) :
    countErrorRenders (a ++ b) = countErrorRenders a + countErrorRenders b :=
  List.countP_append _ _ _

theorem countCN_append (a b : List WatchEvent) :
    countContinuingNotices (a ++ b) = countContinuingNotices a + countContinuingNotices b :=
  List.countP_append _ _ _

theorem countER_statusEvents (P : Prop) [Decidable P] (a b : String) :
    countErrorRenders (if P then [WatchEvent.statusChange a b] else []) = 0 := by
  split_ifs <;> rfl

theorem countER_progressEvents (P : Prop) [Decidable P] (p : Int) :
    countErrorRenders (if P then [WatchEvent.progress p] else []) = 0 := by
  split_ifs <;> rfl

theorem countER_warnEvents (P : Prop) [Decidable P] (a b : Nat) :
    countErrorRenders (if P then [WatchEvent.newWarnings a b] else []) = 0 := by
  split_ifs <;> rfl

theorem countCN_statusEvents (P : Prop) [Decidable P] (a b : String) :
    countContinuingNotices (if P then [WatchEvent.statusChange a b] else []) = 0 := by
  split_ifs <;> rfl

theorem countCN_progressEvents (P : Prop) [Decidable P] (p : Int) :
    countContinuingNotices (if P then [WatchEvent.progress p] else []) = 0 := by
  split_ifs <;> rfl

theorem countCN_warnEvents (P : Prop) [Decidable P] (a b : Nat) :
    countContinuingNotices (if P then [WatchEvent.newWarnings a b] else []) = 0 := by
  split_ifs <;> rfl

theorem finishIteration_count (st : WatchState) (d : Deployment) (lp : Int) (sh : Bool)
    (evs : List WatchEvent) :
    (∀ st2 evs2, finishIteration st d lp sh evs = .next st2 evs2 →
        st2.errorsShown = sh
      ∧ countErrorRenders evs2 = countErrorRenders evs
      ∧ countContinuingNotices evs2 = countContinuingNotices evs)
    ∧ (∀ rr evs2, finishIteration st d lp sh evs = .stop rr evs2 →
        countErrorRenders evs2 = countErrorRenders evs
      ∧ countContinuingNotices evs2 = countContinuingNotices evs) := by
  unfold finishIteration
  constructor
  · intro st2 evs2 h
    split_ifs at h
    all_goals cases h
    all_goals simp [countER_append, countCN_append, countER_warnEvents, countCN_warnEvents]
  · intro rr evs2 h
    split_ifs at h
    all_goals cases h
    all_goals simp [countER_append, countCN_append, countER_warnEvents, countCN_warnEvents]

theorem watchStep_count_bound (cfg : Bool) (st : WatchState) (r : PollResult) :
    (∀ st2 evs, watchStep cfg st r = .next st2 evs →
        countErrorRenders evs + errBudget st2 ≤ errBudget st
      ∧ countContinuingNotices evs + errBudget st2 ≤ errBudget st)
    ∧ (∀ rr evs, watchStep cfg st r = .stop rr evs →
        countErrorRenders evs ≤ errBudget st
      ∧ countContinuingNotices evs ≤ errBudget st) := by
  cases r with
  | fetchError =>
    constructor
    · intro st2 evs h
      simp only [watchStep] at h
      split_ifs at h
      cases h
      simp [countErrorRenders, countContinuingNotices, errBudget]
    · intro rr evs h
      simp only [watchStep] at h
      split_ifs at h
      cases h
      simp [countErrorRenders, countContinuingNotices, errBudget]
  | notFound =>
    constructor
    · intro st2 evs h
      simp only [watchStep] at h
      cases h
    · intro rr evs h
      simp only [watchStep] at h
      cases h
      simp [countErrorRenders, countContinuingNotices]
  | snapshot d =>
    have hbase :
        countErrorRenders
          ((if d.status ≠ st.lastStatus ∧ st.lastStatus ≠ "" then
              [WatchEvent.statusChange st.lastStatus d.status] else []) ++
           (if currProgress d ≠ st.lastProgress ∧ currProgress d > st.lastProgress then
              [WatchEvent.progress (currProgress d)] else [])) = 0 := by
      rw [countER_append, countER_statusEvents, countER_progressEvents]
    have hbaseCN :
        countContinuingNotices
          ((if d.status ≠ st.lastStatus ∧ st.lastStatus ≠ "" then
              [WatchEvent.statusChange st.lastStatus d.status] else []) ++
           (if currProgress d ≠ st.lastProgress ∧ currProgress d > st.lastProgress then
              [WatchEvent.progress (currProgress d)] else [])) = 0 := by
      rw [countCN_append, countCN_statusEvents, countCN_progressEvents]
    simp only [watchStep]
    by_cases hC : currErrCount d > st.lastErrorCount ∧ st.errorsShown = false
    · rw [if_pos hC]
      have hb : errBudget st = 1 := by simp [errBudget, hC.2]
      by_cases hco : cfg = false
      · rw [if_pos hco]
        constructor
        · intro st2 evs h; cases h
        · intro rr evs h
          cases h
          constructor
          · rw [countER_append, hbase, hb]
            simp [countErrorRenders]
          · rw [countCN_append, hbaseCN, hb]
            simp [countContinuingNotices]
      · rw [if_neg hco]
        constructor
        · intro st2 evs h
          obtain ⟨hsh, hcer, hccn⟩ := (finishIteration_count st d _ true _).1 st2 evs h
          have hb2 : errBudget st2 = 0 := by simp [errBudget, hsh]
          rw [hb2, hb, hcer, hccn]
          constructor
          · rw [countER_append, countER_append, hbase]
            simp [countErrorRenders]
          · rw [countCN_append, countCN_append, hbaseCN]
            simp [countContinuingNotices]
        · intro rr evs h
          obtain ⟨hcer, hccn⟩ := (finishIteration_count st d _ true _).2 rr evs h
          rw [hb, hcer, hccn]
          constructor
          · rw [countER_append, countER_append, hbase]
            simp [countErrorRenders]
          · rw [countCN_append, countCN_append, hbaseCN]
            simp [countContinuingNotices]
    · rw [if_neg hC]
      constructor
      · intro st2 evs h
        obtain ⟨hsh, hcer, hccn⟩ := (finishIteration_count st d _ st.errorsShown _).1 st2 evs h
        have hb2 : errBudget st2 = errBudget st := by simp [errBudget, hsh]
        rw [hb2, hcer, hbase, hccn, hbaseCN]
        simp
      · intro rr evs h
        obtain ⟨hcer, hccn⟩ := (finishIteration_count st d _ st.errorsShown _).2 rr evs h
        rw [hcer, hbase, hccn, hbaseCN]
        simp

theorem watchLoop_count_bound (cfg : Bool) :
    ∀ (polls : List PollResult) (st : WatchState),
      countErrorRenders (watchLoop cfg st polls).1 ≤ errBudget st
    ∧ countContinuingNotices (watchLoop cfg st polls).1 ≤ errBudget st := by
  intro polls
  induction polls with
  | nil => intro st; simp [watchLoop, countErrorRenders, countContinuingNotices]
  | cons r rs ih =>
    intro st
    simp only [watchLoop]
    cases hstep : watchStep cfg st r with
    | next st2 evs =>
      obtain ⟨hER, hCN⟩ := (watchStep_count_bound cfg st r).1 st2 evs hstep
      obtain ⟨ihER, ihCN⟩ := ih st2
      constructor
      · rw [countER_append]
        omega
      · rw [countCN_append]
        omega
    | stop rr evs =>
      exact (watchStep_count_bound cfg st r).2 rr evs hstep

theorem getLast?_some_decomp {l : List Char} {c : Char} (h : l.getLast? = some c) :
    ∃ t, l = t ++ [c] := by
  induction l with
  | nil => cases h
  | cons a rest ih =>
    cases rest with
    | nil =>
      simp only [List.getLast?_singleton, Option.some.injEq] at h
      exact ⟨[], by rw [h]; rfl⟩
    | cons b t =>
      rw [List.getLast?_cons_cons] at h
      obtain ⟨t2, ht⟩ := ih h
      exact ⟨a :: t2, by rw [List.cons_append, ht]⟩

theorem dropWhile_append_singleton (p : Char → Bool) (l : List Char) (c : Char)
    (hc : p c = false) :
    List.dropWhile p (l ++ [c]) = List.dropWhile p l ++ [c] := by
  induction l with
  | nil => simp [List.dropWhile, hc]
  | cons a t ih =>
    by_cases ha : p a = true
    · simp only [List.cons_append, List.dropWhile_cons_of_pos ha, ih]
    · rw [Bool.not_eq_true] at ha
      simp [List.cons_append, List.dropWhile_cons, ha]

theorem length_dropWhile_le' (p : Char → Bool) (l : List Char) :
    (l.dropWhile p).length ≤ l.length := by
  induction l with
  | nil => simp
  | cons a t ih =>
    by_cases pa : p a = true
    · rw [List.dropWhile_cons_of_pos pa]
      exact Nat.le_succ_of_le ih
    · rw [Bool.not_eq_true] at pa
      rw [List.dropWhile_cons_of_neg (by rw [pa]; exact Bool.false_ne_true)]

theorem jsTrimList_concat (l : List Char) (c : Char) (hc : isJsWhitespace c = false) :
    jsTrimList (l ++ [c]) = List.dropWhile isJsWhitespace l ++ [c] := by
  unfold jsTrimList
  rw [dropWhile_append_singleton _ _ _ hc, List.reverse_append]
  simp only [List.reverse_cons, List.reverse_nil, List.nil_append, List.singleton_append]
  rw [List.dropWhile_cons_of_neg (by rw [hc]; exact Bool.false_ne_true)]
  rw [List.reverse_cons, List.reverse_reverse]

theorem jsTrim_endsWithColon {e : String} (hend : endsWithChar e ':' = true) :
    endsWithChar (jsTrim e) ':' = true ∧ (jsTrim e).length ≤ e.length
      ∧ (jsTrim e).length ≠ 0 := by
  unfold endsWithChar at hend
  rw [decide_eq_true_eq] at hend
  obtain ⟨t, ht⟩ := getLast?_some_decomp hend
  have hcolon : isJsWhitespace ':' = false := by decide
  have htrim : (jsTrim e).data = List.dropWhile isJsWhitespace t ++ [':'] := by
    show (jsTrimList e.data) = _
    rw [ht, jsTrimList_concat _ _ hcolon]
  refine ⟨?_, ?_, ?_⟩
  · unfold endsWithChar
    rw [decide_eq_true_eq, htrim]
    exact List.getLast?_concat _
  · show (jsTrim e).data.length ≤ e.data.length
    rw [htrim, ht]
    simp only [List.length_append, List.length_cons, List.length_nil]
    have := length_dropWhile_le' isJsWhitespace t
    omega
  · show (jsTrim e).data.length ≠ 0
    rw [htrim]
    simp

/-! ## Claims C1 to C4: the watch loop -/

/-- Claim C1 (amended).  Terminal-status detection in the watch loop: provided
the iteration does not already break at the error-surfacing step (a newly
increased error count with errors not yet shown and `continueOnErrors` false),
a snapshot whose status lower-cases to `succeeded` stops the loop in success,
`failed` stops it in failure, `awaitingverification` stops it in the paused
state that recommends the completion operation, and any other status keeps the
loop running. -/
theorem claim_C1_terminal_detection (cfg : Bool) (st : WatchState) (d : Deployment)
    (hNoErrBreak : ¬(currErrCount d > st.lastErrorCount ∧ st.errorsShown = false ∧ cfg = false)) :
    (jsLower d.status = "succeeded" →
      stopReasonOf (watchStep cfg st (.snapshot d)) = some .succeeded)
    ∧ (jsLower d.status = "failed" →
      stopReasonOf (watchStep cfg st (.snapshot d)) = some .failed)
    ∧ (jsLower d.status = "awaitingverification" →
      stopReasonOf (watchStep cfg st (.snapshot d)) = some .awaitingVerification)
    ∧ (isTerminalStatus d.status = false →
      ∃ st2 evs, watchStep cfg st (.snapshot d) = .next st2 evs) := by
  simp only [watchStep]
  by_cases hC : currErrCount d > st.lastErrorCount ∧ st.errorsShown = false
  · have hco : cfg ≠ false := fun hf => hNoErrBreak ⟨hC.1, hC.2, hf⟩
    rw [if_pos hC, if_neg hco]
    refine ⟨?_, ?_, ?_, ?_⟩
    · intro hs; rw [stopReason_finishIteration, if_pos hs]
    · intro hs
      rw [stopReason_finishIteration, if_neg ?_, if_pos hs]
      intro hcontra; rw [hcontra] at hs; exact absurd hs (by decide)
    · intro hs
      rw [stopReason_finishIteration, if_neg ?_, if_neg ?_, if_pos hs] <;>
        (intro hcontra; rw [hcontra] at hs; exact absurd hs (by decide))
    · intro hnt
      exact ⟨_, _, finishIteration_nonterminal _ _ _ _ _ hnt⟩
  · rw [if_neg hC]
    refine ⟨?_, ?_, ?_, ?_⟩
    · intro hs; rw [stopReason_finishIteration, if_pos hs]
    · intro hs
      rw [stopReason_finishIteration, if_neg ?_, if_pos hs]
      intro hcontra; rw [hcontra] at hs; exact absurd hs (by decide)
    · intro hs
      rw [stopReason_finishIteration, if_neg ?_, if_neg ?_, if_pos hs] <;>
        (intro hcontra; rw [hcontra] at hs; exact absurd hs (by decide))
    · intro hnt
      exact ⟨_, _, finishIteration_nonterminal _ _ _ _ _ hnt⟩

/-- Claim C1, counterexample to the claim as stated: a snapshot whose status
is `Succeeded` but which also carries a first error (`continueOnErrors` false,
errors not yet shown) terminates the loop at the error-surfacing step, not in
success — the iteration never reaches the terminal-status check. -/
theorem claim_C1_counterexample :
    watchStep false initWatchState
      (.snapshot ⟨"Succeeded", some 100, none, some ["boom"]⟩) =
      .stop .errorsDetected [.progress 100, .errorRender 1 ["1. boom"]] := by
  decide

/-- Claim C1, witness: a plain `SuCCeeded` snapshot (mixed case, no errors)
stops the loop in success. -/
theorem claim_C1_witness :
    stopReasonOf (watchStep false initWatchState
      (.snapshot ⟨"SuCCeeded", some 100, none, none⟩)) = some .succeeded :=
  (claim_C1_terminal_detection false initWatchState
    ⟨"SuCCeeded", some 100, none, none⟩ (by decide)).1 (by decide)

/-- Claim C2.  Poll-loop idempotence and the monotonic-progress guard: once a
snapshot has been observed and the loop continued, any later poll returning a
snapshot with the same status, `percentComplete`, error count and warning
count produces no events at all and leaves the session state unchanged; and
the concrete progress sequence `[10, 30, 20, 50]` emits progress events
exactly for `10`, `30` and `50`. -/
theorem claim_C2_idempotence_and_progress_guard :
    (∀ (cfg : Bool) (st : WatchState) (d d2 : Deployment) (st2 : WatchState)
        (evs : List WatchEvent),
      watchStep cfg st (.snapshot d) = .next st2 evs →
      d2.status = d.status → currProgress d2 = currProgress d →
      currErrCount d2 = currErrCount d → currWarnCount d2 = currWarnCount d →
      watchStep cfg st2 (.snapshot d2) = .next st2 [])
    ∧ watchLoop false initWatchState
        [ .snapshot ⟨"InProgress", some 10, none, none⟩,
          .snapshot ⟨"InProgress", some 30, none, none⟩,
          .snapshot ⟨"InProgress", some 20, none, none⟩,
          .snapshot ⟨"InProgress", some 50, none, none⟩ ] =
        ([.progress 10, .progress 30, .progress 50], none) := by
  constructor
  · intro cfg st d d2 st2 evs h hst hpr herr hwarn
    obtain ⟨h1, h2, h3, h4, h5, h6⟩ := watchStep_snapshot_next_inv h
    have hs : ¬(d2.status ≠ st2.lastStatus ∧ st2.lastStatus ≠ "") := by
      rw [hst, h1]; simp
    have hp : ¬(currProgress d2 ≠ st2.lastProgress ∧ currProgress d2 > st2.lastProgress) := by
      rw [hpr, h2]
      rintro ⟨-, hgt⟩
      exact absurd hgt (not_lt.mpr (le_max_right _ _))
    have he : ¬(currErrCount d2 > st2.lastErrorCount ∧ st2.errorsShown = false) := by
      rw [herr, h4]; simp
    have hmax : max st2.lastProgress (currProgress d2) = st2.lastProgress := by
      rw [hpr, h2]
      exact max_eq_left (le_max_right _ _)
    have hterm2 : isTerminalStatus d2.status = false := by rw [hst]; exact h6
    have hw : ¬(currWarnCount d2 > st2.lastWarningCount) := by
      rw [hwarn, h3]; simp
    simp only [watchStep]
    rw [if_neg hs, if_neg hp, if_neg he, hmax,
      finishIteration_nonterminal _ _ _ _ _ hterm2, if_neg hw]
    obtain ⟨a, b, c, e, f, g⟩ := st2
    simp only [WatchState.mk.injEq] at h1 h3 h4 h5 ⊢
    simp [hst, h1, hpr, herr, h3, h4, h5, hwarn]
  · decide

/-- Claim C2, witness: after observing an `InProgress` snapshot at 10%, an
identical poll emits nothing and the state is unchanged. -/
theorem claim_C2_witness :
    watchStep false ⟨"InProgress", 10, 0, 0, 0, false⟩
      (.snapshot ⟨"InProgress", some 10, none, none⟩) =
      .next ⟨"InProgress", 10, 0, 0, 0, false⟩ [] :=
  claim_C2_idempotence_and_progress_guard.1 false initWatchState
    ⟨"InProgress", some 10, none, none⟩ ⟨"InProgress", some 10, none, none⟩
    ⟨"InProgress", 10, 0, 0, 0, false⟩ [.progress 10] (by decide) rfl rfl rfl rfl

/-- Claim C3 (amended).  Error surfacing: at most one full error render and at
most one "continuing despite errors" notice per watch session; at the first
observed error-count increase the loop stops when `continueOnErrors` is false,
and when `continueOnErrors` is true it emits the notice and keeps polling
provided the snapshot's status is not itself terminal (with a terminal status
the same iteration still ends at the terminal-status check); each rendered
line substitutes a placeholder for an empty message and flags as incomplete a
message ending in `':'` that is under 20 characters. -/
theorem claim_C3_error_surfacing :
    (∀ (cfg : Bool) (polls : List PollResult),
        countErrorRenders (watchLoop cfg initWatchState polls).1 ≤ 1
      ∧ countContinuingNotices (watchLoop cfg initWatchState polls).1 ≤ 1)
    ∧ (∀ (st : WatchState) (d : Deployment),
        currErrCount d > st.lastErrorCount → st.errorsShown = false →
        ∃ evs, watchStep false st (.snapshot d) = .stop .errorsDetected evs
          ∧ WatchEvent.errorRender (currErrCount d)
              (renderErrors (d.deploymentErrors.getD [])) ∈ evs)
    ∧ (∀ (st : WatchState) (d : Deployment),
        currErrCount d > st.lastErrorCount → st.errorsShown = false →
        isTerminalStatus d.status = false →
        ∃ st2 evs, watchStep true st (.snapshot d) = .next st2 evs
          ∧ WatchEvent.continuingNotice ∈ evs ∧ st2.errorsShown = true)
    ∧ (∀ (i : Nat) (e : String),
        (e = "" → renderErrorLine i e = toString (i + 1) ++ ". (Empty error message)")
      ∧ (endsWithChar e ':' = true → e.length < 20 →
          renderErrorLine i e = toString (i + 1) ++ ". " ++ e ++ " (Incomplete error message)")) := by
  refine ⟨?_, ?_, ?_, ?_⟩
  · intro cfg polls
    have h := watchLoop_count_bound cfg polls initWatchState
    have hb : errBudget initWatchState = 1 := rfl
    rw [hb] at h
    exact h
  · intro st d h1 h2
    simp only [watchStep]
    rw [if_pos ⟨h1, h2⟩]
    rw [if_pos trivial]
    refine ⟨_, rfl, ?_⟩
    exact List.mem_append_right _ (List.mem_singleton.mpr rfl)
  · intro st d h1 h2 hnt
    simp only [watchStep]
    rw [if_pos ⟨h1, h2⟩, if_neg (by simp)]
    rw [finishIteration_nonterminal _ _ _ _ _ hnt]
    refine ⟨_, _, rfl, ?_, rfl⟩
    refine List.mem_append_left _ (List.mem_append_right _ ?_)
    exact List.mem_singleton.mpr rfl
  · intro i e
    constructor
    · intro h
      subst h
      rfl
    · intro hend h20
      obtain ⟨hend2, hle, hne⟩ := jsTrim_endsWithColon hend
      unfold renderErrorLine
      rw [if_neg hne, if_pos (Or.inr ⟨hend2, Nat.lt_of_le_of_lt hle h20⟩)]

/-- Claim C3, counterexample to the claim as stated: with `continueOnErrors`
true, a snapshot carrying the first error increase but a `Succeeded` status
emits the notice yet still terminates the loop in the same iteration, so the
loop does not "keep polling". -/
theorem claim_C3_counterexample :
    watchStep true initWatchState
      (.snapshot ⟨"Succeeded", some 100, none, some ["boom"]⟩) =
      .stop .succeeded [.progress 100, .errorRender 1 ["1. boom"], .continuingNotice] := by
  decide

/-- Claim C3, witness: a first error increase with `continueOnErrors` false
stops the loop and renders the error list. -/
theorem claim_C3_witness :
    ∃ evs, watchStep false initWatchState
        (.snapshot ⟨"InProgress", some 0, none, some ["e"]⟩) = .stop .errorsDetected evs
      ∧ WatchEvent.errorRender 1 (renderErrors ["e"]) ∈ evs :=
  claim_C3_error_surfacing.2.1 initWatchState
    ⟨"InProgress", some 0, none, some ["e"]⟩ (by decide) rfl

/-- Claim C4.  The consecutive-failure budget: a fetch failure increments the
counter and stops the loop exactly when it reaches 3, leaving every other
session field (including observed progress) unchanged; a successful snapshot
iteration that continues the loop resets the counter to 0; a poll sequence
with no run of 3 consecutive failures never stops with exhaustion; and 3
consecutive failures from a clean counter always stop it with exhaustion. -/
theorem claim_C4_failure_budget :
    (∀ (cfg : Bool) (st : WatchState),
      watchStep cfg st .fetchError =
        if st.consecutiveErrors + 1 ≥ 3 then
          .stop .tooManyFailures [.fetchFailure (st.consecutiveErrors + 1)]
        else .next { st with consecutiveErrors := st.consecutiveErrors + 1 }
          [.fetchFailure (st.consecutiveErrors + 1)])
    ∧ (∀ (cfg : Bool) (st : WatchState) (d : Deployment) (st2 : WatchState)
        (evs : List WatchEvent),
        watchStep cfg st (.snapshot d) = .next st2 evs → st2.consecutiveErrors = 0)
    ∧ (∀ (cfg : Bool) (polls : List PollResult) (st : WatchState),
        failureRunsOk st.consecutiveErrors polls = true →
        (watchLoop cfg st polls).2 ≠ some .tooManyFailures)
    ∧ (∀ (cfg : Bool) (st : WatchState) (rs : List PollResult),
        st.consecutiveErrors = 0 →
        (watchLoop cfg st (.fetchError :: .fetchError :: .fetchError :: rs)).2 =
          some .tooManyFailures) := by
  refine ⟨?_, ?_, ?_, ?_⟩
  · intro cfg st
    simp only [watchStep, maxPollFailures]
  · intro cfg st d st2 evs h
    exact (watchStep_snapshot_next_inv h).2.2.2.2.1
  · intro cfg polls
    induction polls with
    | nil => intro st _; simp [watchLoop]
    | cons r rs ih =>
      intro st hok
      simp only [watchLoop]
      cases r with
      | fetchError =>
        simp only [failureRunsOk, Bool.and_eq_true, decide_eq_true_eq] at hok
        have hlt : ¬(st.consecutiveErrors + 1 ≥ maxPollFailures) := by
          simp only [maxPollFailures]; omega
        simp only [watchStep, if_neg hlt]
        exact ih { st with consecutiveErrors := st.consecutiveErrors + 1 } hok.2
      | notFound =>
        simp [watchStep]
      | snapshot d =>
        have hok2 : failureRunsOk 0 rs = true := hok
        cases hstep : watchStep cfg st (.snapshot d) with
        | next st2 evs =>
          have h0 : st2.consecutiveErrors = 0 := (watchStep_snapshot_next_inv hstep).2.2.2.2.1
          simp only []
          have := ih st2 (by rw [h0]; exact hok2)
          simpa using this
        | stop rr evs =>
          have := watchStep_snapshot_stop_reason hstep
          simp only []
          intro hcontra
          simp only [Option.some.injEq] at hcontra
          exact this hcontra
  · intro cfg st rs h0
    simp only [watchLoop, watchStep, maxPollFailures, h0]
    norm_num

/-- Claim C4, witness: two failures, a successful poll, then two more failures
never exhaust the failure budget. -/
theorem claim_C4_witness :
    (watchLoop false initWatchState
      [.fetchError, .fetchError, .snapshot ⟨"InProgress", some 1, none, none⟩,
       .fetchError, .fetchError]).2 ≠ some .tooManyFailures :=
  claim_C4_failure_budget.2.2.1 false
    [.fetchError, .fetchError, .snapshot ⟨"InProgress", some 1, none, none⟩,
     .fetchError, .fetchError] initWatchState (by decide)

/-! ## Claim C5: the request signer -/

/-- Claim C5.  `createSignature` rejects a client secret that fails the
base64 syntax check before touching either crypto primitive (the result is
the invalid-secret error for every choice of MD5/HMAC functions); for a
passing secret it returns the timestamp and nonce it was given, the signature
`base64(HMAC-SHA256(base64decode(secret), clientKey ++ upper(method) ++ path
++ timestamp ++ nonce ++ base64(MD5(body))))` and the authorization header
`"epi-hmac " ++ clientKey ++ ":" ++ timestamp ++ ":" ++ nonce ++ ":" ++
signature`, deterministically; and the syntax check fails exactly for a
length not a multiple of 4 or an embedded space (the lenient Node decoder is
total, so no further strings are rejected). -/
theorem claim_C5_hmac_signature :
    (∀ (md5a md5b : String → String) (hma hmb : List Nat → String → String)
        (ts n ck cs m p b : String),
      isValidBase64 cs = false →
        createSignature md5a hma ts n ck cs m p b =
          .error "The ClientSecret is invalid - must be valid base64."
        ∧ createSignature md5a hma ts n ck cs m p b = createSignature md5b hmb ts n ck cs m p b)
    ∧ (∀ (md5 : String → String) (hmac : List Nat → String → String)
        (ts n ck cs m p b : String),
      isValidBase64 cs = true →
        createSignature md5 hmac ts n ck cs m p b =
          .ok { timestamp := ts, nonce := n,
                signature := hmac (jsBase64Decode cs)
                  (ck ++ jsUpper m ++ p ++ ts ++ n ++ md5 b),
                authorization := "epi-hmac " ++ ck ++ ":" ++ ts ++ ":" ++ n ++ ":" ++
                  hmac (jsBase64Decode cs) (ck ++ jsUpper m ++ p ++ ts ++ n ++ md5 b) })
    ∧ (∀ cs : String, isValidBase64 cs = false ↔ (¬(cs.length % 4 = 0) ∨ ' ' ∈ cs.data)) := by
  refine ⟨?_, ?_, ?_⟩
  · intro md5a md5b hma hmb ts n ck cs m p b h
    constructor
    · unfold createSignature
      rw [if_pos h]
    · unfold createSignature
      rw [if_pos h, if_pos h]
  · intro md5 hmac ts n ck cs m p b h
    unfold createSignature
    rw [if_neg (by rw [h]; decide)]
  · intro cs
    have hc : cs.data.contains ' ' = true ↔ ' ' ∈ cs.data := List.elem_iff
    simp only [isValidBase64, Bool.and_eq_false_iff, decide_eq_false_iff_not,
      Bool.not_eq_false, Bool.not_eq_false', hc]

/-- Claim C5, witness: a valid 4-character secret with constant crypto
oracles produces the fully assembled result. -/
theorem claim_C5_witness :
    createSignature (fun _ => "MD5B64") (fun _ _ => "SIGB64") "123" "nonce0"
      "key" "c2Vj" "post" "/api/v1.0/projects" "" =
      .ok { timestamp := "123", nonce := "nonce0", signature := "SIGB64",
            authorization := "epi-hmac key:123:nonce0:SIGB64" } :=
  claim_C5_hmac_signature.2.1 (fun _ => "MD5B64") (fun _ _ => "SIGB64") "123" "nonce0"
    "key" "c2Vj" "post" "/api/v1.0/projects" "" (by decide)

/-! ## Claim C6: package naming -/

/-- Claim C6.  Package-name generation is a pure function of type, version,
prefix and database type following the four documented patterns; the two
independent copies in the sources (package:create and deployment:deploy)
agree on the name; the cms example with prefix `mysite` and version `1.0.0`
gives `mysite.cms.app.1.0.0.nupkg`; and omitting the prefix drops the leading
segment with no leading dot. -/
theorem claim_C6_package_naming :
    (∀ (v : String) (pfx : Option String) (db : String),
        (generatePackageInfo .cms v pfx db).name =
          pfxSegment pfx ++ "cms.app." ++ v ++ ".nupkg"
      ∧ (generatePackageInfo .commerce v pfx db).name =
          pfxSegment pfx ++ "commerce.app." ++ v ++ ".nupkg"
      ∧ (generatePackageInfo .head v pfx db).name =
          pfxSegment pfx ++ "head.app." ++ v ++ ".zip"
      ∧ (generatePackageInfo .sqldb v pfx db).name =
          pfxSegment pfx ++ db ++ ".sqldb." ++ v ++ ".bacpac")
    ∧ (∀ (t : PackageType) (v : String) (pfx : Option String) (db : String),
        (generatePackageInfo t v pfx db).name = deployGeneratePackageName t v pfx db)
    ∧ (generatePackageInfo .cms "1.0.0" (some "mysite") "cms").name = "mysite.cms.app.1.0.0.nupkg"
    ∧ (generatePackageInfo .cms "1.0.0" none "cms").name = "cms.app.1.0.0.nupkg"
    ∧ (generatePackageInfo .sqldb "2.0" none "commerce").name = "commerce.sqldb.2.0.bacpac"
    ∧ (generatePackageInfo .cms "1.0.0" none "cms").name.data.head? ≠ some '.' := by
  refine ⟨?_, ?_, by decide, by decide, by decide, by decide⟩
  · intro v pfx db
    exact ⟨rfl, rfl, rfl, rfl⟩
  · intro t v pfx db
    cases t <;> rfl

/-! ## Claim C7: credential validation -/

/-- Claim C7.  `validateCredentials` restores the previously held in-memory
credentials on every exit path (the returned state equals the original for
every oracle behaviour); it reads the project's deployments list when the
supplied credentials carry a truthy project id and the projects list
otherwise; a 401/403 `ApiError` yields `valid = false`, a success yields
`valid = true` with the array length as `projectsFound` (0 for a non-array),
any other `ApiError` is re-raised wrapped, and any non-`ApiError` exception
is re-raised as is. -/
theorem claim_C7_validate_credentials
    (oracle : Option AuthCredentials → String → Except ApiCallError (Option Nat))
    (mem : Option AuthCredentials) (creds : AuthCredentials) :
    ((validateCredentials oracle mem creds).2.1 = mem)
    ∧ (∀ pid, creds.projectId = some pid → pid ≠ "" →
        (validateCredentials oracle mem creds).2.2 = "projects/" ++ pid ++ "/deployments")
    ∧ ((creds.projectId = none ∨ creds.projectId = some "") →
        (validateCredentials oracle mem creds).2.2 = "projects")
    ∧ (∀ v, oracle (some creds) (validateCredentials oracle mem creds).2.2 = .ok v →
        (validateCredentials oracle mem creds).1 =
          .ok { valid := true, projectsFound := some (v.getD 0) })
    ∧ (∀ s m, oracle (some creds) (validateCredentials oracle mem creds).2.2 =
          .error (.apiError s m) →
        ((s = 401 ∨ s = 403) →
          (validateCredentials oracle mem creds).1 =
            .ok { valid := false, projectsFound := none })
        ∧ (¬(s = 401 ∨ s = 403) →
          (validateCredentials oracle mem creds).1 = .error (.wrappedApi s m)))
    ∧ (∀ desc, oracle (some creds) (validateCredentials oracle mem creds).2.2 =
          .error (.otherError desc) →
        (validateCredentials oracle mem creds).1 = .error (.reraised desc)) := by
  refine ⟨rfl, ?_, ?_, ?_, ?_, ?_⟩
  · intro pid hp hne
    simp [validateCredentials, hp, hne]
  · intro hp
    rcases hp with hp | hp <;> simp [validateCredentials, hp]
  · intro v h
    simp only [validateCredentials] at h ⊢
    rw [h]
  · intro s m h
    constructor
    · intro hs
      simp only [validateCredentials] at h ⊢
      rw [h]
      simp [if_pos hs]
    · intro hs
      simp only [validateCredentials] at h ⊢
      rw [h]
      simp [if_neg hs]
  · intro desc h
    simp only [validateCredentials] at h ⊢
    rw [h]

/-- Claim C7, witness: credentials carrying project id `p1` and an oracle
returning a 2-element array validate against the deployments endpoint, report
`projectsFound = 2`, and the original (empty) in-memory credentials are back
afterwards. -/
theorem claim_C7_witness :
    (validateCredentials (fun _ _ => .ok (some 2)) none
      { clientKey := "k", clientSecret := "s", projectId := some "p1" }).2.2 =
      "projects/p1/deployments"
    ∧ (validateCredentials (fun _ _ => .ok (some 2)) none
      { clientKey := "k", clientSecret := "s", projectId := some "p1" }).1 =
      .ok { valid := true, projectsFound := some 2 }
    ∧ (validateCredentials (fun _ _ => .ok (some 2)) none
      { clientKey := "k", clientSecret := "s", projectId := some "p1" }).2.1 = none :=
  ⟨(claim_C7_validate_credentials (fun _ _ => .ok (some 2)) none
      { clientKey := "k", clientSecret := "s", projectId := some "p1" }).2.1
      "p1" rfl (by decide),
   (claim_C7_validate_credentials (fun _ _ => .ok (some 2)) none
      { clientKey := "k", clientSecret := "s", projectId := some "p1" }).2.2.2.1
      (some 2) rfl,
   (claim_C7_validate_credentials (fun _ _ => .ok (some 2)) none
      { clientKey := "k", clientSecret := "s", projectId := some "p1" }).1⟩

/-! ## Claim C9: transport failures versus API errors -/

/-- Claim C9 (amended).  `ApiClient.request` normalises every failure into
the single `ApiError` shape: a transport failure with no response becomes
`ApiError(0, "HTTP 0: Unknown")`, a non-axios exception becomes
`ApiError(0, "Network error: " ++ cause)` (only this branch carries the
underlying cause), a rejected non-2xx response becomes
`ApiError(status, data.message || axios message || 'API request failed',
data.errors || [])`, and a 2xx envelope with `success = false` becomes
`ApiError(status, joined errors || 'API call failed', errors)`.  Transport
failures are distinguished from response failures only by the status-0
sentinel, not by a distinct `NetworkError` class. -/
theorem claim_C9_error_normalisation :
    (requestOutcome .noResponse =
      .error { status := 0, message := "HTTP 0: Unknown", errors := none })
    ∧ (∀ desc, requestOutcome (.nonAxios desc) =
        .error { status := 0, message := "Network error: " ++ desc, errors := none })
    ∧ (∀ status dm de am, requestOutcome (.responseErr status dm de am) =
        .error { status := status,
                 message := jsStrOr (dm.getD "") (jsStrOr am "API request failed"),
                 errors := some (de.getD []) })
    ∧ (∀ status body, requestOutcome (.response2xx status body) =
        if body.success = false then
          .error { status := status, message := joinedErrors body.errors, errors := body.errors }
        else .ok body.result) :=
  ⟨rfl, fun _ => rfl, fun _ _ _ _ => rfl, fun _ _ => rfl⟩

/-- Claim C9, counterexample to the claim as stated: a transport failure with
no response fails with the same `ApiError` shape as an HTTP 500 response —
there is no distinct `NetworkError`, only the status-0 sentinel, and the
no-response message (`"HTTP 0: Unknown"`) does not carry the underlying
cause. -/
theorem claim_C9_counterexample :
    requestOutcome .noResponse =
      .error { status := 0, message := "HTTP 0: Unknown", errors := none }
    ∧ requestOutcome (.responseErr 500 (some "Server Error") none "axios message") =
      .error { status := 500, message := "Server Error", errors := some [] } := by
  constructor <;> rfl

/-! ## Claim C10: upload validation -/

theorem validatePackageFile_error (fp fn : String) (fe : Bool) (fs : Nat)
    (h : fe = false ∨ fs = 0 ∨ packagePatternMatch fn = false) :
    ∃ e, validatePackageFile fe fs fp fn = .error e := by
  unfold validatePackageFile
  rcases h with h | h | h
  · rw [if_pos h]
    exact ⟨_, rfl⟩
  · by_cases hfe : fe = false
    · rw [if_pos hfe]
      exact ⟨_, rfl⟩
    · rw [if_neg hfe, if_pos h]
      exact ⟨_, rfl⟩
  · by_cases hfe : fe = false
    · rw [if_pos hfe]
      exact ⟨_, rfl⟩
    · by_cases hfs : fs = 0
      · rw [if_neg hfe, if_pos hfs]
        exact ⟨_, rfl⟩
      · rw [if_neg hfe, if_neg hfs, if_pos h]
        exact ⟨_, rfl⟩

/-- Claim C10.  `uploadPackage` fails without consulting either network
oracle whenever the file is missing, empty, or misnamed (the result is an
error and is identical for every SAS/upload oracle); when the checks pass it
uploads under the provided blob name or, when none is given, the file's
basename; and the name pattern accepts and rejects as the
`[prefix.]{cms|commerce|head}.app.<version>.{nupkg|zip}` /
`[prefix.]{cms|commerce}.sqldb.<version>.bacpac` rule dictates,
case-insensitively. -/
theorem claim_C10_upload_validation :
    (∀ (sp cp : Option String) (sasA sasB : Except String String)
        (upA upB : String → String → Except String Unit) (o : UploadOptions),
      o.fileExists = false ∨ o.fileSize = 0 ∨ packagePatternMatch o.fileBaseName = false →
        (∃ e, uploadPackage sp cp sasA upA o = .error e)
        ∧ uploadPackage sp cp sasA upA o = uploadPackage sp cp sasB upB o)
    ∧ (∀ (sp cp : Option String) (sasUrl : String)
        (up : String → String → Except String Unit) (o : UploadOptions) (pid : String),
      resolveProjectId o.projectId sp cp = .ok pid →
      o.fileExists = true → o.fileSize ≠ 0 → packagePatternMatch o.fileBaseName = true →
      up sasUrl (jsStrOr (o.blobName.getD "") o.fileBaseName) = .ok () →
        uploadPackage sp cp (.ok sasUrl) up o =
          .ok (jsStrOr (o.blobName.getD "") o.fileBaseName))
    ∧ (packagePatternMatch "mysite.cms.app.1.0.0.nupkg" = true
      ∧ packagePatternMatch "MySite.CMS.App.1.0.0.NUPKG" = true
      ∧ packagePatternMatch "head.app.20250712.zip" = true
      ∧ packagePatternMatch "commerce.sqldb.1.0.bacpac" = true
      ∧ packagePatternMatch "head.sqldb.1.0.bacpac" = false
      ∧ packagePatternMatch "archive.zip" = false
      ∧ packagePatternMatch ".cms.app.1.nupkg" = false
      ∧ packagePatternMatch "cms.app..nupkg" = false) := by
  refine ⟨?_, ?_, by decide⟩
  · intro sp cp sasA sasB upA upB o h
    obtain ⟨e, he⟩ := validatePackageFile_error o.filePath o.fileBaseName o.fileExists o.fileSize h
    cases hres : resolveProjectId o.projectId sp cp with
    | error e2 =>
      constructor
      · exact ⟨e2, by simp [uploadPackage, hres]⟩
      · simp [uploadPackage, hres]
    | ok pid =>
      constructor
      · exact ⟨e, by simp [uploadPackage, hres, he]⟩
      · simp [uploadPackage, hres, he]
  · intro sp cp sasUrl up o pid hres hex hsz hpat hup
    have h1 : ¬(o.fileExists = false) := by rw [hex]; decide
    have h3 : ¬(packagePatternMatch o.fileBaseName = false) := by rw [hpat]; decide
    simp [uploadPackage, hres, validatePackageFile, h1, hsz, h3, hup]

/-- Claim C10, witness: a present, non-empty, well-named package with no
explicit blob name uploads under its basename. -/
theorem claim_C10_witness :
    uploadPackage none none (.ok "https://sas.example/c") (fun _ _ => .ok ())
      ⟨"/tmp/x/cms.app.1.nupkg", true, 10, "cms.app.1.nupkg", some "p", none⟩ =
      .ok "cms.app.1.nupkg" :=
  claim_C10_upload_validation.2.1 none none "https://sas.example/c" (fun _ _ => .ok ())
    ⟨"/tmp/x/cms.app.1.nupkg", true, 10, "cms.app.1.nupkg", some "p", none⟩ "p"
    rfl rfl (by decide) (by decide) rfl

/-! ## Claim C8: credential override scoping in the composite deploy -/

theorem setupCredentials_inv (valOracle : AuthCredentials → Except String Bool)
    (flags : ShipFlags) (st : WorldState) :
    (setupCredentials valOracle flags st).savedCredentials = st.storedCredentials
    ∧ (setupCredentials valOracle flags st).savedEndpoint = st.apiEndpoint
    ∧ (setupCredentials valOracle flags st).state.storedCredentials = st.storedCredentials := by
  simp only [setupCredentials]
  split_ifs <;> try exact ⟨rfl, rfl, rfl⟩
  all_goals split <;> exact ⟨rfl, rfl, rfl⟩

theorem cleanupShip_inv (sc : Option AuthCredentials) (se : String) (st : WorldState) :
    (cleanupShip sc se st).storedCredentials = st.storedCredentials
    ∧ (∀ c, sc = some c → (cleanupShip sc se st).memCredentials = some c)
    ∧ (se ≠ "" → (cleanupShip sc se st).apiEndpoint = se) := by
  simp only [cleanupShip]
  cases sc <;> split_ifs <;> simp_all

/-- Claim C8 (amended).  After a composite deploy run with any flags and any
workflow body that never writes the credential store, the persisted store is
unchanged on every exit path (setup failure, body failure, or success);
whenever credentials were stored before the run, cleanup puts exactly those
back into the in-memory client; and a non-empty original API endpoint is
restored.  When no credentials were stored, the override remains in memory
after cleanup (see the counterexample). -/
theorem claim_C8_override_scoping (valOracle : AuthCredentials → Except String Bool)
    (flags : ShipFlags) (body : WorldState → WorldState) (st : WorldState)
    (hbody : ∀ s, (body s).storedCredentials = s.storedCredentials) :
    (runShip valOracle flags body st).storedCredentials = st.storedCredentials
    ∧ (∀ c, st.storedCredentials = some c →
        (runShip valOracle flags body st).memCredentials = some c)
    ∧ (st.apiEndpoint ≠ "" →
        (runShip valOracle flags body st).apiEndpoint = st.apiEndpoint) := by
  obtain ⟨h1, h2, h3⟩ := setupCredentials_inv valOracle flags st
  simp only [runShip]
  split_ifs with hf
  · obtain ⟨c1, c2, c3⟩ := cleanupShip_inv (setupCredentials valOracle flags st).savedCredentials
      (setupCredentials valOracle flags st).savedEndpoint
      (setupCredentials valOracle flags st).state
    refine ⟨?_, ?_, ?_⟩
    · rw [c1, h3]
    · intro c hc
      exact c2 c (by rw [h1, hc])
    · intro hne
      rw [c3 (by rw [h2]; exact hne), h2]
  · obtain ⟨c1, c2, c3⟩ := cleanupShip_inv (setupCredentials valOracle flags st).savedCredentials
      (setupCredentials valOracle flags st).savedEndpoint
      (body (setupCredentials valOracle flags st).state)
    refine ⟨?_, ?_, ?_⟩
    · rw [c1, hbody, h3]
    · intro c hc
      exact c2 c (by rw [h1, hc])
    · intro hne
      rw [c3 (by rw [h2]; exact hne), h2]

/-- Claim C8, counterexample to the claim as stated: when no credentials were
stored, a run with key/secret overrides leaves the override in the in-memory
client after cleanup — the original (absent) in-memory credentials are not
restored on that exit path. -/
theorem claim_C8_counterexample :
    (runShip (fun _ => .ok true)
      { clientKey := some "k", clientSecret := some "s", apiEndpointFlag := none,
        projectIdFlag := none, skipValidation := true }
      id
      { storedCredentials := none, memCredentials := none,
        apiEndpoint := "https://paasportal.episerver.net/api/v1.0/" }).memCredentials =
      some { clientKey := "k", clientSecret := "s", projectId := none }
    ∧ (none : Option AuthCredentials) ≠
        some { clientKey := "k", clientSecret := "s", projectId := none } := by
  constructor
  · rfl
  · decide

/-- Claim C8, witness: with stored credentials present, a run with overrides
and an endpoint flag leaves the store untouched, puts the stored credentials
back in memory, and restores the endpoint. -/
theorem claim_C8_witness :
    (runShip (fun _ => .ok true)
      { clientKey := some "k2", clientSecret := some "s2", apiEndpointFlag := some "https://other/",
        projectIdFlag := none, skipValidation := true }
      id
      { storedCredentials := some { clientKey := "ck", clientSecret := "cs", projectId := some "p" },
        memCredentials := none,
        apiEndpoint := "https://paasportal.episerver.net/api/v1.0/" }).storedCredentials =
      some { clientKey := "ck", clientSecret := "cs", projectId := some "p" }
    ∧ (runShip (fun _ => .ok true)
      { clientKey := some "k2", clientSecret := some "s2", apiEndpointFlag := some "https://other/",
        projectIdFlag := none, skipValidation := true }
      id
      { storedCredentials := some { clientKey := "ck", clientSecret := "cs", projectId := some "p" },
        memCredentials := none,
        apiEndpoint := "https://paasportal.episerver.net/api/v1.0/" }).memCredentials =
      some { clientKey := "ck", clientSecret := "cs", projectId := some "p" }
    ∧ (runShip (fun _ => .ok true)
      { clientKey := some "k2", clientSecret := some "s2", apiEndpointFlag := some "https://other/",
        projectIdFlag := none, skipValidation := true }
      id
      { storedCredentials := some { clientKey := "ck", clientSecret := "cs", projectId := some "p" },
        memCredentials := none,
        apiEndpoint := "https://paasportal.episerver.net/api/v1.0/" }).apiEndpoint =
      "https://paasportal.episerver.net/api/v1.0/" := by
  have h := claim_C8_override_scoping (fun _ => .ok true)
    { clientKey := some "k2", clientSecret := some "s2", apiEndpointFlag := some "https://other/",
      projectIdFlag := none, skipValidation := true }
    id
    { storedCredentials := some { clientKey := "ck", clientSecret := "cs", projectId := some "p" },
      memCredentials := none,
      apiEndpoint := "https://paasportal.episerver.net/api/v1.0/" }
    (fun _ => rfl)
  exact ⟨h.1, h.2.1 _ rfl, h.2.2 (by decide)⟩

end Opticloud
